import Mathlib

/-!
Shallow embedding of `src/browserbox-webview.js` (BrowserBox webview custom
element): the pending-request ledger, transport negotiation, the liveness
prober state machine, the legacy tab cache and the legacy method handlers.

JavaScript values are modelled as follows: a field that may be absent, `null`,
`undefined` or of the wrong dynamic type is an `Option`; JS `a || b` over
string-valued expressions (empty string is falsy) is `jsOrStr`; JS `a ?? b`
over `Option` is `<|>`; object spread `{...a, ...b}` over tab records is
`mergeTab`.
-/

/-- JS string truthiness: the value of a string expression in an `a || b`
chain, where the empty string (and `null`/`undefined`/non-string) is falsy. -/
def truthyStr : Option String → Option String
  | some s => if s.length > 0 then some s else none
  | none => none

/-- JS `a || b` over two string-valued expressions. -/
def jsOrStr (a b : Option String) : Option String :=
  match truthyStr a with
  | some s => some s
  | none => truthyStr b

/-- A tab record as handled by the component: each remote-supplied field is
optional (`none` = key absent, or not a string / not an integer). -/
structure Tab where
  id : Option String := none
  tabId : Option String := none
  targetId : Option String := none
  index : Option Int := none
  url : Option String := none
  title : Option String := none
deriving Repr, DecidableEq

/-- Embeds `_normalizeTabId`: the first of `detail.id`, `detail.tabId`,
`detail.targetId` that is a non-empty string, else `null`. -/
def normalizeTabId (t : Tab) : Option String :=
  match truthyStr t.id with
  | some s => some s
  | none =>
    match truthyStr t.tabId with
    | some s => some s
    | none => truthyStr t.targetId

/-- JS object spread `{...a, ...b}` over tab records: a key present in `b`
overrides the one in `a`. -/
def mergeTab (a b : Tab) : Tab :=
  { id := b.id <|> a.id
    tabId := b.tabId <|> a.tabId
    targetId := b.targetId <|> a.targetId
    index := b.index <|> a.index
    url := b.url <|> a.url
    title := b.title <|> a.title }

/-- Recursive core of `_updateLegacyTabCache`: `findIndex` over the cache for
the first entry whose normalized id is `tid`; on a hit at position `i`, the
entry becomes `{...existing, ...detail, index: existing.index ?? detail.index
?? i}`; on a miss the cache is unchanged. -/
def updateGo (tid : String) (detail : Tab) : Nat → List Tab → List Tab
  | _, [] => []
  | i, t :: rest =>
    if normalizeTabId t = some tid then
      { mergeTab t detail with index := t.index <|> detail.index <|> some (i : Int) } :: rest
    else
      t :: updateGo tid detail (i + 1) rest

/-- Embeds `_updateLegacyTabCache detail`. -/
def updateLegacyTabCache (cache : List Tab) (detail : Tab) : List Tab :=
  match normalizeTabId detail with
  | none => cache
  | some tid => updateGo tid detail 0 cache

/-- List insertion at a (already clamped non-negative) position, as
`Array.prototype.splice(pos, 0, x)` does; positions beyond the end append. -/
def insertAt : Nat → Tab → List Tab → List Tab
  | 0, x, l => x :: l
  | _ + 1, x, [] => [x]
  | n + 1, x, a :: l => a :: insertAt n x l

/-- Reindexing pass `cache.map((tab, i) => ({...tab, index: i}))`, with the
position counter made explicit for induction. -/
def reindexFrom : Nat → List Tab → List Tab
  | _, [] => []
  | n, t :: rest => { t with index := some (n : Int) } :: reindexFrom (n + 1) rest

/-- Embeds the reindexing `map` used by `_addLegacyTabCache` and
`_removeLegacyTabCache`. -/
def reindex (l : List Tab) : List Tab := reindexFrom 0 l

/-- Existence check `findIndex(...) !== -1` over the cache. -/
def cacheHasId (cache : List Tab) (tid : String) : Bool :=
  cache.any fun t => normalizeTabId t == some tid

/-- Embeds `_addLegacyTabCache detail`: ignore detail without an id; delegate
to update when the id already exists; otherwise build the entry with
`index = Number.isInteger(detail.index) ? detail.index : cache.length`, splice
it in at `Math.min(index, cache.length)` (JS splice clamps a negative start to
`max(length + start, 0)`), then reindex every entry to its position. -/
def addLegacyTabCache (cache : List Tab) (detail : Tab) : List Tab :=
  match normalizeTabId detail with
  | none => cache
  | some tid =>
    if cacheHasId cache tid then
      updateLegacyTabCache cache detail
    else
      let idx : Int :=
        match detail.index with
        | some i => i
        | none => (cache.length : Int)
      let entry : Tab := { detail with index := some idx }
      let pos0 : Int := min idx (cache.length : Int)
      let pos : Nat := if pos0 < 0 then ((cache.length : Int) + pos0).toNat else pos0.toNat
      reindex (insertAt pos entry cache)

/-- Embeds `_removeLegacyTabCache detail`: filter out entries matching the id,
then reindex the remaining entries. -/
def removeLegacyTabCache (cache : List Tab) (detail : Tab) : List Tab :=
  match normalizeTabId detail with
  | none => cache
  | some tid => reindex (cache.filter fun t => !(normalizeTabId t == some tid))

/-- A Tab Cache mutation triggered by an unsolicited lifecycle notification:
`tab-created`, `tab-updated`, `tab-closed`. -/
inductive CacheOp where
  | insert (detail : Tab)
  | update (detail : Tab)
  | remove (detail : Tab)
deriving Repr, DecidableEq

/-- Dispatch of a lifecycle notification to the cache maintenance routines, as
in `_handleMessage`. -/
def applyCacheOp (cache : List Tab) : CacheOp → List Tab
  | .insert d => addLegacyTabCache cache d
  | .update d => updateLegacyTabCache cache d
  | .remove d => removeLegacyTabCache cache d

/-- A finite sequence of cache operations applied to the initially empty
cache. -/
def runCacheOps (ops : List CacheOp) : List Tab :=
  ops.foldl applyCacheOp []

/-- The Tab Cache invariant, with an explicit starting position: every entry's
`index` field equals its position in the list (offset by `n`). -/
def indexedFrom (n : Nat) (c : List Tab) : Prop :=
  ∀ i t, c.get? i = some t → t.index = some ((n + i : Nat) : Int)

/-- Every cache entry's `index` field equals its position in the list. -/
def wellIndexed (c : List Tab) : Prop := indexedFrom 0 c

/-- Positional stamping `tabs.map((tab, index) => ({ index, ...tab }))` from
the legacy `getTabs` handler: the spread of `tab` comes after the positional
`index` key, so a tab's own `index` field overrides the positional one. -/
def stampGo : Nat → List Tab → List Tab
  | _, [] => []
  | i, t :: rest => { t with index := t.index <|> some (i : Int) } :: stampGo (i + 1) rest

/-- The `normalizedTabs` computation of the legacy `getTabs` handler. -/
def stampTabs (tabs : List Tab) : List Tab := stampGo 0 tabs

/-- Outcome of the direct legacy `getTabs` query: an array reply, a non-array
reply, or a rejection (timeout / error). -/
inductive TabsQueryResult where
  | ok (tabs : List Tab)
  | nonArray
  | err
deriving Repr, DecidableEq

/-- Embeds the legacy `getTabs` handler, returning (returned list, cache after
the call). A rejected query falls back to `cache.slice()` and proceeds to the
stamping; a non-array success returns `cache.slice()` and leaves the cache
untouched; otherwise the stamped list is returned and becomes the cache. -/
def getTabsLegacy (cache : List Tab) (q : TabsQueryResult) : List Tab × List Tab :=
  match q with
  | .ok tabs => (stampTabs tabs, stampTabs tabs)
  | .nonArray => (cache, cache)
  | .err => (stampTabs cache, stampTabs cache)

/-- JS `String.prototype.trim()`, modelled executably over the character
list: drop leading and trailing whitespace. -/
def jsTrim (s : String) : String :=
  ⟨((s.data.dropWhile Char.isWhitespace).reverse.dropWhile Char.isWhitespace).reverse⟩

/-- The `indexArg` parameter of the shared legacy resolver: a string id, an
integer index, or anything else (`null`, absent, non-integer). -/
inductive IndexArg where
  | strArg (s : String)
  | intArg (i : Int)
  | nullArg
deriving Repr, DecidableEq

/-- The identifier read `t?.id || t?.targetId || null`. -/
def tabIdOrTarget (t : Tab) : Option String := jsOrStr t.id t.targetId

/-- The clamped index `Math.max(0, Math.min(tabs.length - 1, normalized))` of
the shared legacy resolver (as a `Nat`, for a non-empty list). -/
def clampIndex (n : Nat) (x : Int) : Nat :=
  (max 0 (min ((n : Int) - 1) x)).toNat

/-- The tab-list branch of `resolveTabId`: for a non-empty list, select the
tab at the clamped (negative-wraparound) index and read its identifier; for an
empty list, fall back to the peer's active tab. -/
def resolveViaList (arg : IndexArg) (tabs : List Tab) (activeTab : Option Tab) : Option String :=
  if tabs.length > 0 then
    let requested : Int :=
      match arg with
      | .intArg i => i
      | _ => 0
    let normalized : Int := if requested < 0 then (tabs.length : Int) + requested else requested
    (tabs.get? (clampIndex tabs.length normalized)).bind tabIdOrTarget
  else
    activeTab.bind tabIdOrTarget

/-- Embeds the shared legacy `resolveTabId` helper, parameterized by the
result of the `getTabs` handler (always a list) and of the `getActiveTab`
query (`none` = rejected or `null`). A non-blank string argument is returned
trimmed without consulting either source. -/
def resolveTabId (arg : IndexArg) (tabs : List Tab) (activeTab : Option Tab) : Option String :=
  match arg with
  | .strArg s =>
    if (jsTrim s).length > 0 then some (jsTrim s)
    else resolveViaList arg tabs activeTab
  | _ => resolveViaList arg tabs activeTab

/-- An outbound legacy fire-and-forget message (only the shape the claims
need). -/
inductive Msg where
  | closeTab (tabId : String)
  | other (type : String)
deriving Repr, DecidableEq

/-- The `fail` helper of the legacy handler table: appends
` (originalError.message)` when a truthy (non-empty) message is present. -/
def failMsg (m : String) (origMsg : Option String) : String :=
  match origMsg with
  | some om => if om.length > 0 then m ++ " (" ++ om ++ ")" else m
  | none => m

/-- Embeds the legacy `closeTab` handler: resolve the target tab id, fail with
a descriptive error when none is found, otherwise post one `closeTab`
message. -/
def closeTabLegacy (arg : IndexArg) (tabs : List Tab) (activeTab : Option Tab)
    (origMsg : Option String) : Except String (List Msg) :=
  match resolveTabId arg tabs activeTab with
  | none => .error (failMsg "Legacy closeTab failed: no target tab" origMsg)
  | some tid => .ok [Msg.closeTab tid]

/-- The keep-count normalization `Number.isInteger(opts.keep) ?
Math.max(0, opts.keep) : 0` of the legacy `closeAllTabs` handler. -/
def normalizeKeep : Option Int → Nat
  | some k => (max 0 k).toNat
  | none => 0

/-- The descending close loop `for (let i = tabs.length - 1; i >= keep; i -= 1)`
of the legacy `closeAllTabs` handler, with `c` remaining iterations (the
current index is `keep + c - 1`); a tab without an identifier is skipped. -/
def closeLoopGo (tabs : List Tab) (keep : Nat) : Nat → List Msg
  | 0 => []
  | c + 1 =>
    (match (tabs.get? (keep + c)).bind tabIdOrTarget with
     | some tid => [Msg.closeTab tid]
     | none => []) ++ closeLoopGo tabs keep c

/-- Embeds the legacy `closeAllTabs` handler, returning (messages posted,
returned count). -/
def closeAllTabsLegacy (keepOpt : Option Int) (tabs : List Tab) : List Msg × Nat :=
  let keep := normalizeKeep keepOpt
  if tabs.length ≤ keep then ([], tabs.length)
  else (closeLoopGo tabs keep (tabs.length - keep), keep)

/-- The component's transport mode: `'unknown' | 'modern' | 'legacy'`. -/
inductive TransportMode where
  | unknown
  | modern
  | legacy
deriving Repr, DecidableEq

/-- Embeds the body of `_resolveTransport` as a pure function of the current
mode and of the probe request's outcome (`Except.error` = timeout or peer
error): returns (resulting mode, whether a probe message was sent). -/
def resolveTransportMode (mode : TransportMode) (probeResult : Except String Unit) :
    TransportMode × Bool :=
  if mode ≠ TransportMode.unknown then (mode, false)
  else
    match probeResult with
    | .ok _ => (TransportMode.modern, true)
    | .error _ => (TransportMode.legacy, true)

/-- Embeds `_resolveTransport` including its `try`/`catch`: the probe
rejection is swallowed and converted into a mode, so the promise returned to
the caller always fulfills. -/
def resolveTransport (mode : TransportMode) (probeResult : Except String Unit) :
    Except String (TransportMode × Bool) :=
  Except.ok (resolveTransportMode mode probeResult)

/-- The value of a JS `method` argument: a string, or anything else. -/
inductive JsArg where
  | jsStr (s : String)
  | nonString
deriving Repr, DecidableEq

/-- The envelope dispatched by `callApi`: a modern `bbx-api-call` or a legacy
handler invocation, carrying the dispatched method name. -/
inductive Dispatch where
  | modern (method : String)
  | legacy (method : String)
deriving Repr, DecidableEq

/-- Observable outcome of one `callApi` invocation: its result, the transport
mode afterwards, whether the readiness gate was awaited, and whether a
transport probe message was sent. -/
structure CallOutcome where
  result : Except String Dispatch
  finalMode : TransportMode
  waitedReady : Bool
  probeSent : Bool
deriving Repr

/-- The argument-validation error message thrown by `callApi`. -/
def callApiGuardMsg : String := "callApi(method, ...args) requires a non-empty method string."

/-- Embeds `callApi` up to dispatch: the guard rejects a non-string or blank
method before awaiting readiness or touching any state; otherwise the method
is trimmed, the transport is resolved when still unknown, and the trimmed name
is dispatched on the resulting transport. -/
def callApi (mode : TransportMode) (probeResult : Except String Unit) (method : JsArg) :
    CallOutcome :=
  match method with
  | .nonString => ⟨.error callApiGuardMsg, mode, false, false⟩
  | .jsStr s =>
    if (jsTrim s).length = 0 then ⟨.error callApiGuardMsg, mode, false, false⟩
    else
      let normalized := jsTrim s
      let resolved :=
        if mode = TransportMode.unknown then resolveTransportMode mode probeResult
        else (mode, false)
      match resolved.1 with
      | .legacy => ⟨.ok (.legacy normalized), .legacy, true, resolved.2⟩
      | m => ⟨.ok (.modern normalized), m, true, resolved.2⟩

/-! ### Pending-Request Ledger

`_pending` is a map from request id to `{resolve, reject, timer}`. Request ids
are `bbx-<timestamp>-<seq>` with a strictly increasing `++this._requestSeq`,
so they are unique per instance; the model allocates them from a counter. A
settlement is observable as which continuation fired; the model records, per
settlement kind, the ids it settled. -/

/-- Ledger state: ids currently in `_pending`, ids already settled by each
mechanism, and the allocation counter. -/
structure LedgerState where
  pending : List Nat
  settledResponse : List Nat
  settledTimeout : List Nat
  settledCancel : List Nat
  nextId : Nat
deriving Repr, DecidableEq

/-- Ledger events: `_request` allocating and storing an entry; a correlated
inbound message (`_handleMessage`); a request timeout firing; and
`_rejectPending` (teardown, source change, reconnect stop, refresh). -/
inductive LedgerEv where
  | send
  | response (id : Nat)
  | timeoutFire (id : Nat)
  | cancelAll
deriving Repr, DecidableEq

/-- One ledger transition, exactly as the source arbitrates: a response only
settles when `_pending.has(requestId)` (then it clears the timer, deletes the
entry and resolves/rejects); a timeout deletes the entry and rejects;
`_rejectPending` rejects and clears everything. -/
def ledgerStep (s : LedgerState) : LedgerEv → LedgerState
  | .send =>
    { s with pending := s.nextId :: s.pending, nextId := s.nextId + 1 }
  | .response i =>
    if i ∈ s.pending then
      { s with pending := s.pending.erase i, settledResponse := i :: s.settledResponse }
    else s
  | .timeoutFire i =>
    if i ∈ s.pending then
      { s with pending := s.pending.erase i, settledTimeout := i :: s.settledTimeout }
    else s
  | .cancelAll =>
    { s with pending := [], settledCancel := s.pending ++ s.settledCancel }

/-- The ledger of a freshly constructed component. -/
def ledgerStart : LedgerState := ⟨[], [], [], [], 0⟩

/-- Run a finite event trace from the fresh ledger. -/
def ledgerRun (evs : List LedgerEv) : LedgerState :=
  evs.foldl ledgerStep ledgerStart

/-- How many times id `i` has been settled, over all three mechanisms. -/
def settledCount (s : LedgerState) (i : Nat) : Nat :=
  s.settledResponse.count i + s.settledTimeout.count i + s.settledCancel.count i

/-- The ledger accounting invariant: every allocated id is either pending or
settled, exactly once in total; unallocated ids appear nowhere. -/
def ledgerInv (s : LedgerState) : Prop :=
  ∀ i, s.pending.count i + settledCount s i = if i < s.nextId then 1 else 0

/-! ### Transport-resolution race

Two callers run `callApi` concurrently. In the JS event loop, a caller's mode
check in `callApi` and the re-check plus probe `postMessage` inside
`_resolveTransport` happen synchronously in one turn (`_request` posts the
message before returning its promise), so they form one atomic `check` step;
the probe's settlement, which assigns `_transportMode`, happens in a later
turn (`settle`). -/

/-- Joint state of the race: the shared mode, the number of probe messages
posted, and each caller's program counter (0 = before its mode check, 1 =
probe in flight, 2 = done). -/
structure RaceState where
  mode : TransportMode
  probesSent : Nat
  pcA : Nat
  pcB : Nat
deriving Repr, DecidableEq

/-- Race events: caller `isA` performs its synchronous mode check (sending a
probe when the mode is still unknown), or caller `isA`'s in-flight probe
settles with the given outcome, assigning the mode. -/
inductive RaceEv where
  | check (isA : Bool)
  | settle (isA : Bool) (success : Bool)
deriving Repr, DecidableEq

/-- One interleaving step; an event for a caller not at the matching program
counter is a no-op. -/
def raceStep (s : RaceState) : RaceEv → RaceState
  | .check isA =>
    if (if isA then s.pcA else s.pcB) ≠ 0 then s
    else if s.mode = TransportMode.unknown then
      { s with probesSent := s.probesSent + 1
               pcA := if isA then 1 else s.pcA
               pcB := if isA then s.pcB else 1 }
    else
      { s with pcA := if isA then 2 else s.pcA
               pcB := if isA then s.pcB else 2 }
  | .settle isA success =>
    if (if isA then s.pcA else s.pcB) ≠ 1 then s
    else
      { s with mode := if success then TransportMode.modern else TransportMode.legacy
               pcA := if isA then 2 else s.pcA
               pcB := if isA then s.pcB else 2 }

/-- Initial race state: mode unknown, both callers about to check. -/
def raceStart : RaceState := ⟨TransportMode.unknown, 0, 0, 0⟩

/-- Run an interleaving schedule. -/
def raceRun (evs : List RaceEv) : RaceState :=
  evs.foldl raceStep raceStart

/-! ### Liveness prober

`_startInitPing`, the 1000ms interval callback, `_retryIframeLoad` and the
terminal `connect-failed` branch, with the constants of the source:
`_iframeRetryPingThreshold = 10`, `_iframeRetryMax = 5`. The model logs the
externally observable events in order. -/

/-- Observable liveness events: an `init` probe posted, an `iframe-retry`
scheduled (attempt number and backoff delay), and the terminal
`connect-failed` notification (attempts, maxAttempts). -/
inductive LiveEv where
  | probe
  | retry (attempt delayMs : Nat)
  | connectFailed (attempts maxAttempts : Nat)
deriving Repr, DecidableEq

/-- Liveness prober state: `_initPingCount`, `_iframeRetryCount`,
`_reconnectStopped`, `_isReady`, whether the ping interval timer is armed, and
the event log. -/
structure LiveState where
  pingCount : Nat
  retryCount : Nat
  stopped : Bool
  isReady : Bool
  timerOn : Bool
  events : List LiveEv
deriving Repr, DecidableEq

/-- `this._iframeRetryPingThreshold`. -/
def pingThreshold : Nat := 10

/-- `this._iframeRetryMax`. -/
def retryMax : Nat := 5

/-- The backoff `Math.min(2000 * this._iframeRetryCount, 8000)` computed by
`_retryIframeLoad` after incrementing the attempt counter. -/
def backoffDelay (k : Nat) : Nat := min (2000 * k) 8000

/-- Embeds `_retryIframeLoad`: stop the ping interval, increment the attempt
counter, schedule the reload after the backoff delay (logged as a retry
event). -/
def retryIframeLoad (s : LiveState) : LiveState :=
  { s with timerOn := false
           retryCount := s.retryCount + 1
           events := s.events ++ [LiveEv.retry (s.retryCount + 1) (backoffDelay (s.retryCount + 1))] }

/-- Embeds `_startInitPing`: bail out when reconnection is stopped; otherwise
reset the ping count, post an immediate `init` probe and arm the interval. -/
def startInitPing (s : LiveState) : LiveState :=
  if s.stopped then s
  else { s with timerOn := true, pingCount := 0, events := s.events ++ [LiveEv.probe] }

/-- Embeds one firing of the 1000ms interval callback (a no-op when the
interval is not armed): disarm on stop or readiness; otherwise bump the ping
count; at the threshold either schedule a retry (attempts remaining) or stop
reconnection and emit the terminal `connect-failed`; below the threshold post
another `init` probe. -/
def livenessTick (s : LiveState) : LiveState :=
  if !s.timerOn then s
  else if s.stopped then { s with timerOn := false }
  else if s.isReady then { s with timerOn := false }
  else
    let pc := s.pingCount + 1
    if pc ≥ pingThreshold then
      if s.retryCount < retryMax then
        retryIframeLoad { s with pingCount := pc }
      else
        { s with pingCount := pc
                 stopped := true
                 timerOn := false
                 events := s.events ++ [LiveEv.connectFailed s.retryCount retryMax] }
    else
      { s with pingCount := pc, events := s.events ++ [LiveEv.probe] }

/-- Embeds `_handleLoad` for a peer that never becomes ready: reset the ping
count and restart the probing interval. -/
def handleLoad (s : LiveState) : LiveState :=
  startInitPing { s with isReady := false, pingCount := 0 }

/-- Apply `n` firings of the interval. -/
def applyTicks : Nat → LiveState → LiveState
  | 0, s => s
  | n + 1, s => applyTicks n (livenessTick s)

/-- Prober state at the first iframe load. -/
def liveStart : LiveState := ⟨0, 0, false, false, false, []⟩

/-- One unresponsive cycle: the peer stays silent through a full threshold of
interval firings, the retry reload is scheduled, fires, and the iframe load
event restarts probing. -/
def unresponsiveCycle (s : LiveState) : LiveState :=
  handleLoad (applyTicks pingThreshold s)

/-- The complete never-ready scenario: initial load starts probing; five
unresponsive cycles each schedule a reload retry; the sixth silent threshold
emits the terminal `connect-failed`. -/
def neverReadyRun : LiveState :=
  applyTicks pingThreshold
    (unresponsiveCycle (unresponsiveCycle (unresponsiveCycle (unresponsiveCycle
      (unresponsiveCycle (startInitPing liveStart))))))

/-- The retry events of a log, in order, as (attempt, delayMs). -/
def retryEvents (evs : List LiveEv) : List (Nat × Nat) :=
  evs.filterMap fun e =>
    match e with
    | .retry a d => some (a, d)
    | _ => none

/-- The terminal `connect-failed` events of a log, as (attempts,
maxAttempts). -/
def failEvents (evs : List LiveEv) : List (Nat × Nat) :=
  evs.filterMap fun e =>
    match e with
    | .connectFailed a m => some (a, m)
    | _ => none

/-- The five-tab list of the spec's `closeAllTabs` scenario. -/
def fiveTabs : List Tab :=
  [{ id := some "t1" }, { id := some "t2" }, { id := some "t3" },
   { id := some "t4" }, { id := some "t5" }]

/-- Race bound: each caller contributes at most one probe, namely once its
program counter has left 0. -/
def raceInv (s : RaceState) : Prop :=
  s.probesSent ≤ (if s.pcA = 0 then 0 else 1) + (if s.pcB = 0 then 0 else 1)

theorem indexedFrom_nil (n : Nat) : indexedFrom n [] := by
  intro i t h
  simp [List.get?] at h

theorem indexedFrom_cons {n : Nat} {t : Tab} {l : List Tab}
    (h1 : t.index = some (n : Int)) (h2 : indexedFrom (n + 1) l) :
    indexedFrom n (t :: l) := by
  intro i t' h
  cases i with
  | zero =>
    simp only [List.get?] at h
    cases h
    simpa using h1
  | succ j =>
    simp only [List.get?] at h
    have := h2 j t' h
    rw [this]
    congr 1
    omega

theorem indexedFrom_cons_head {n : Nat} {t : Tab} {l : List Tab}
    (h : indexedFrom n (t :: l)) : t.index = some (n : Int) := by
  have := h 0 t (by simp [List.get?])
  simpa using this

theorem indexedFrom_cons_tail {n : Nat} {t : Tab} {l : List Tab}
    (h : indexedFrom n (t :: l)) : indexedFrom (n + 1) l := by
  intro i t' hi
  have := h (i + 1) t' (by simpa [List.get?] using hi)
  rw [this]
  congr 1
  omega

theorem reindexFrom_indexedFrom : ∀ (l : List Tab) (n : Nat), indexedFrom n (reindexFrom n l)
  | [], n => by simpa [reindexFrom] using indexedFrom_nil n
  | t :: rest, n => by
    rw [reindexFrom]
    exact indexedFrom_cons rfl (reindexFrom_indexedFrom rest (n + 1))

theorem reindex_wellIndexed (l : List Tab) : wellIndexed (reindex l) :=
  reindexFrom_indexedFrom l 0

theorem updateGo_indexedFrom (tid : String) (d : Tab) :
    ∀ (l : List Tab) (n : Nat), indexedFrom n l → indexedFrom n (updateGo tid d n l)
  | [], n, h => by simpa [updateGo] using h
  | t :: rest, n, h => by
    rw [updateGo]
    by_cases hm : normalizeTabId t = some tid
    · rw [if_pos hm]
      exact indexedFrom_cons (by rw [indexedFrom_cons_head h]; rfl) (indexedFrom_cons_tail h)
    · rw [if_neg hm]
      exact indexedFrom_cons (indexedFrom_cons_head h)
        (updateGo_indexedFrom tid d rest (n + 1) (indexedFrom_cons_tail h))

theorem updateLegacyTabCache_wellIndexed (cache : List Tab) (detail : Tab)
    (h : wellIndexed cache) : wellIndexed (updateLegacyTabCache cache detail) := by
  rw [updateLegacyTabCache]
  cases normalizeTabId detail with
  | none => exact h
  | some tid => exact updateGo_indexedFrom tid detail cache 0 h

theorem addLegacyTabCache_wellIndexed (cache : List Tab) (d : Tab)
    (h : wellIndexed cache) : wellIndexed (addLegacyTabCache cache d) := by
  rw [addLegacyTabCache]
  cases hn : normalizeTabId d with
  | none => exact h
  | some tid =>
    cases he : cacheHasId cache tid with
    | true =>
      simp only [he]
      simpa using updateLegacyTabCache_wellIndexed cache d h
    | false =>
      simp only [he]
      simpa using reindex_wellIndexed (insertAt _ _ cache)

theorem removeLegacyTabCache_wellIndexed (cache : List Tab) (d : Tab)
    (h : wellIndexed cache) : wellIndexed (removeLegacyTabCache cache d) := by
  rw [removeLegacyTabCache]
  cases hn : normalizeTabId d with
  | none => exact h
  | some tid => exact reindex_wellIndexed _

theorem applyCacheOp_wellIndexed (cache : List Tab) (op : CacheOp)
    (h : wellIndexed cache) : wellIndexed (applyCacheOp cache op) := by
  cases op with
  | insert d => exact addLegacyTabCache_wellIndexed cache d h
  | update d => exact updateLegacyTabCache_wellIndexed cache d h
  | remove d => exact removeLegacyTabCache_wellIndexed cache d h

theorem foldl_cacheOps_wellIndexed :
    ∀ (ops : List CacheOp) (cache : List Tab), wellIndexed cache →
      wellIndexed (ops.foldl applyCacheOp cache)
  | [], _, h => h
  | op :: rest, cache, h =>
    foldl_cacheOps_wellIndexed rest (applyCacheOp cache op) (applyCacheOp_wellIndexed cache op h)

/-- C6: after any finite sequence of Tab Cache insert, update and remove
operations starting from the empty cache, every entry's `index` field equals
its position in the cache's ordered list. -/
theorem C6_cache_reindex_invariant (ops : List CacheOp) : wellIndexed (runCacheOps ops) :=
  foldl_cacheOps_wellIndexed ops [] (indexedFrom_nil 0)

/-- C6 witness at a concrete operation sequence and position. -/
theorem C6_cache_reindex_invariant_witness :
    ∃ t, (runCacheOps [CacheOp.insert { id := some "a", index := some 9 },
        CacheOp.insert { id := some "b", index := some 0 },
        CacheOp.remove { id := some "a" }]).get? 0 = some t ∧ t.index = some 0 := by
  refine ⟨{ id := some "b", index := some 0 }, by decide, ?_⟩
  exact C6_cache_reindex_invariant
    [CacheOp.insert { id := some "a", index := some 9 },
     CacheOp.insert { id := some "b", index := some 0 },
     CacheOp.remove { id := some "a" }] 0 _ (by decide)

theorem updateGo_found (tid : String) (d e : Tab) (post : List Tab)
    (he : normalizeTabId e = some tid) :
    ∀ (pre : List Tab) (n : Nat), (∀ t ∈ pre, normalizeTabId t ≠ some tid) →
      updateGo tid d n (pre ++ e :: post) =
        pre ++ { mergeTab e d with
                 index := e.index <|> d.index <|> some ((n + pre.length : Nat) : Int) } :: post
  | [], n, _ => by
    rw [List.nil_append, updateGo, if_pos he, List.nil_append]
    simp
  | t :: pre, n, hpre => by
    rw [List.cons_append, updateGo, if_neg (hpre t (by simp)), List.cons_append]
    have ih := updateGo_found tid d e post he pre (n + 1) (fun x hx => hpre x (by simp [hx]))
    rw [ih]
    have : ((n + 1) + pre.length : Nat) = (n + (t :: pre).length : Nat) := by
      simp [List.length_cons]
      omega
    rw [this]

/-- C7 counterexample: an update notification for an existing entry that
explicitly supplies `index := 5` leaves the entry's `index` at its pre-existing
value `0`, contradicting the claim that an explicitly supplied index wins. -/
theorem C7_update_index_counterexample :
    updateLegacyTabCache [{ id := some "a", index := some 0 }]
        { id := some "a", index := some 5 } =
      [{ id := some "a", index := some 0 }]
    ∧ updateLegacyTabCache [{ id := some "a", index := some 0 }]
        { id := some "a", index := some 5 } ≠
      [{ id := some "a", index := some 5 }] := by
  constructor
  · decide
  · decide

/-- C7 amended: an update notification matching an existing entry by
identifier replaces the entry with the spread merge of the old entry and the
notification, except that the resulting `index` field is the pre-existing
index when one exists, else the notification's supplied index, else the
entry's position in the cache. -/
theorem C7_update_merge (pre post : List Tab) (e d : Tab) (tid : String)
    (hd : normalizeTabId d = some tid) (he : normalizeTabId e = some tid)
    (hpre : ∀ t ∈ pre, normalizeTabId t ≠ some tid) :
    updateLegacyTabCache (pre ++ e :: post) d =
      pre ++ { mergeTab e d with
               index := e.index <|> d.index <|> some ((pre.length : Nat) : Int) } :: post := by
  rw [updateLegacyTabCache, hd]
  have := updateGo_found tid d e post he pre 0 hpre
  simpa using this

/-- C7 witness: the amended statement applied at a concrete cache. -/
theorem C7_update_merge_witness :
    updateLegacyTabCache
        [{ id := some "x", index := some 0 },
         { id := some "a", index := some 1, url := some "old" }]
        { id := some "a", index := some 7, url := some "new", title := some "T" } =
      [{ id := some "x", index := some 0 },
       { id := some "a", index := some 1, url := some "new", title := some "T" }] := by
  have h := C7_update_merge [{ id := some "x", index := some 0 }] []
      { id := some "a", index := some 1, url := some "old" }
      { id := some "a", index := some 7, url := some "new", title := some "T" }
      "a" (by decide) (by decide) (by decide)
  exact h.trans (by decide)

theorem stampGo_get? :
    ∀ (l : List Tab) (n i : Nat) (t : Tab), l.get? i = some t →
      (stampGo n l).get? i = some { t with index := t.index <|> some ((n + i : Nat) : Int) }
  | [], _, i, _, h => by simp [List.get?] at h
  | x :: rest, n, 0, t, h => by
    simp only [List.get?] at h
    cases h
    simp [stampGo, List.get?]
  | x :: rest, n, i + 1, t, h => by
    simp only [List.get?] at h
    rw [stampGo]
    show (stampGo (n + 1) rest).get? i = _
    rw [stampGo_get? rest (n + 1) i t h]
    have : ((n + 1) + i : Nat) = (n + (i + 1) : Nat) := by omega
    rw [this]

/-- C8 counterexample: a successful direct query returning a single tab that
itself carries `index := 7` is returned with `index = 7` at position 0, not
with its positional index 0 as the claim states. -/
theorem C8_getTabs_counterexample :
    (getTabsLegacy [] (.ok [{ id := some "a", index := some 7 }])).1 =
      [{ id := some "a", index := some 7 }]
    ∧ ¬ (∀ i t, ((getTabsLegacy [] (.ok [{ id := some "a", index := some 7 }])).1.get? i =
          some t → t.index = some (i : Int))) := by
  constructor
  · decide
  · intro h
    have := h 0 { id := some "a", index := some 7 } (by decide)
    simp at this

/-- C8 amended: the legacy `getTabs` handler returns the direct query's list,
or the Tab Cache when the query rejects; each returned entry is stamped with
its positional index only when the entry does not itself carry an `index`
field (an entry's own `index` overrides the positional stamp); the cache after
the call equals the returned list (the non-array success case returns a copy
of the cache and leaves it in place). -/
theorem C8_getTabs_behavior :
    (∀ cache q, (getTabsLegacy cache q).2 = (getTabsLegacy cache q).1)
    ∧ (∀ cache tabs i t, tabs.get? i = some t →
        (getTabsLegacy cache (.ok tabs)).1.get? i =
          some { t with index := t.index <|> some (i : Int) })
    ∧ (∀ cache i t, cache.get? i = some t →
        (getTabsLegacy cache .err).1.get? i =
          some { t with index := t.index <|> some (i : Int) })
    ∧ (∀ cache, getTabsLegacy cache .nonArray = (cache, cache)) := by
  refine ⟨?_, ?_, ?_, ?_⟩
  · intro cache q
    cases q <;> rfl
  · intro cache tabs i t h
    have := stampGo_get? tabs 0 i t h
    simpa [getTabsLegacy, stampTabs] using this
  · intro cache i t h
    have := stampGo_get? cache 0 i t h
    simpa [getTabsLegacy, stampTabs] using this
  · intro cache
    rfl

/-- C8 witness: the amended statement applied at a concrete query result. -/
theorem C8_getTabs_behavior_witness :
    (getTabsLegacy [] (.ok [{ id := some "a" }, { id := some "b", index := some 9 }])).1.get? 0 =
      some { id := some "a", index := some (0 : Int) } := by
  have h := C8_getTabs_behavior.2.1 [] [{ id := some "a" }, { id := some "b", index := some 9 }]
      0 { id := some "a" } (by decide)
  exact h.trans (by decide)

/-- C9: the shared legacy resolver selects by clamped (negative-wraparound)
index from a non-empty tab list and returns the selected tab's identifier;
with no usable tab list it derives the identifier from the peer's active tab;
and when resolution yields no identifier, the legacy `closeTab` operation
rejects with a descriptive error that includes the `originalError` message. -/
theorem C9_resolveTabId :
    (∀ (i : Int) (tabs : List Tab) (activeTab : Option Tab), tabs ≠ [] → i < 0 →
      resolveTabId (.intArg i) tabs activeTab =
        (tabs.get? ((max 0 (min ((tabs.length : Int) - 1) ((tabs.length : Int) + i))).toNat)).bind
          tabIdOrTarget)
    ∧ (∀ (i : Int) (tabs : List Tab) (activeTab : Option Tab), tabs ≠ [] → 0 ≤ i →
      resolveTabId (.intArg i) tabs activeTab =
        (tabs.get? ((max 0 (min ((tabs.length : Int) - 1) i)).toNat)).bind tabIdOrTarget)
    ∧ (∀ activeTab, resolveTabId .nullArg [] activeTab = activeTab.bind tabIdOrTarget)
    ∧ (∀ arg tabs activeTab om, resolveTabId arg tabs activeTab = none → 0 < om.length →
      ∃ pre post, closeTabLegacy arg tabs activeTab (some om) = .error (pre ++ om ++ post)) := by
  refine ⟨?_, ?_, ?_, ?_⟩
  · intro i tabs activeTab hne hi
    have hlen : 0 < tabs.length := List.length_pos.mpr hne
    show resolveViaList (.intArg i) tabs activeTab = _
    rw [resolveViaList, if_pos hlen]
    simp only [clampIndex]
    rw [if_pos hi]
  · intro i tabs activeTab hne hi
    have hlen : 0 < tabs.length := List.length_pos.mpr hne
    show resolveViaList (.intArg i) tabs activeTab = _
    rw [resolveViaList, if_pos hlen]
    simp only [clampIndex]
    rw [if_neg (by omega : ¬ i < 0)]
  · intro activeTab
    rfl
  · intro arg tabs activeTab om hnone hom
    refine ⟨"Legacy closeTab failed: no target tab" ++ " (", ")", ?_⟩
    rw [closeTabLegacy, hnone]
    rw [failMsg, if_pos hom]

/-- C9 witness: resolution at a concrete positive out-of-range index clamps to
the last tab. -/
theorem C9_resolveTabId_witness :
    resolveTabId (.intArg 5) [({ id := some "x" } : Tab), { id := some "y" }] none = some "y" := by
  have h := C9_resolveTabId.2.1 5 [({ id := some "x" } : Tab), { id := some "y" }] none
    (by decide) (by decide)
  exact h.trans (by decide)

theorem normalizeKeep_coe (k : Nat) : normalizeKeep (some (k : Int)) = k := by
  simp [normalizeKeep]

theorem closeLoopGo_length (tabs : List Tab)
    (hids : ∀ t ∈ tabs, (tabIdOrTarget t).isSome) (keep : Nat) :
    ∀ c, keep + c ≤ tabs.length → (closeLoopGo tabs keep c).length = c
  | 0, _ => rfl
  | c + 1, h => by
    have hlt : keep + c < tabs.length := by omega
    obtain ⟨t, ht⟩ : ∃ t, tabs.get? (keep + c) = some t :=
      ⟨_, List.get?_eq_get hlt⟩
    obtain ⟨tid, htid⟩ := Option.isSome_iff_exists.mp (hids t (List.get?_mem ht))
    have hb : (tabs.get? (keep + c)).bind tabIdOrTarget = some tid := by
      rw [ht]
      exact htid
    rw [closeLoopGo, hb]
    simp only [List.length_append, List.length_cons, List.length_nil]
    rw [closeLoopGo_length tabs hids keep c (by omega)]
    omega

theorem closeLoopGo_get? (tabs : List Tab)
    (hids : ∀ t ∈ tabs, (tabIdOrTarget t).isSome) (keep : Nat) :
    ∀ c j, j < c → keep + c ≤ tabs.length →
      (closeLoopGo tabs keep c).get? j =
        ((tabs.get? (keep + c - 1 - j)).bind tabIdOrTarget).map Msg.closeTab
  | 0, j, hj, _ => absurd hj (Nat.not_lt_zero j)
  | c + 1, j, hj, h => by
    have hlt : keep + c < tabs.length := by omega
    obtain ⟨t, ht⟩ : ∃ t, tabs.get? (keep + c) = some t :=
      ⟨_, List.get?_eq_get hlt⟩
    obtain ⟨tid, htid⟩ := Option.isSome_iff_exists.mp (hids t (List.get?_mem ht))
    have hb : (tabs.get? (keep + c)).bind tabIdOrTarget = some tid := by
      rw [ht]
      exact htid
    rw [closeLoopGo, hb]
    cases j with
    | zero =>
      have harg : keep + (c + 1) - 1 - 0 = keep + c := by omega
      rw [harg, hb]
      rfl
    | succ j' =>
      show (closeLoopGo tabs keep c).get? j' = _
      rw [closeLoopGo_get? tabs hids keep c j' (by omega) (by omega)]
      have harg : keep + c - 1 - j' = keep + (c + 1) - 1 - (j' + 1) := by omega
      rw [harg]

/-- C4: the legacy `closeAllTabs` handler issues no close messages and returns
the tab count when it is at most the keep value; otherwise, provided every tab
carries an identifier, it issues exactly `length - keep` close messages,
iterating from the last tab down to index `keep`, and returns `keep`; with
`keep = 2` and 5 tabs it issues 3 close messages (for tabs 5, 4, 3) and
returns 2. -/
theorem C4_closeAllTabs :
    (∀ (k : Nat) (tabs : List Tab), tabs.length ≤ k →
      closeAllTabsLegacy (some (k : Int)) tabs = ([], tabs.length))
    ∧ (∀ (k : Nat) (tabs : List Tab), k < tabs.length →
        (∀ t ∈ tabs, (tabIdOrTarget t).isSome) →
        (closeAllTabsLegacy (some (k : Int)) tabs).1.length = tabs.length - k
        ∧ (closeAllTabsLegacy (some (k : Int)) tabs).2 = k
        ∧ ∀ j, j < tabs.length - k →
            (closeAllTabsLegacy (some (k : Int)) tabs).1.get? j =
              ((tabs.get? (tabs.length - 1 - j)).bind tabIdOrTarget).map Msg.closeTab)
    ∧ closeAllTabsLegacy (some 2) fiveTabs =
        ([Msg.closeTab "t5", Msg.closeTab "t4", Msg.closeTab "t3"], 2) := by
  refine ⟨?_, ?_, ?_⟩
  · intro k tabs h
    rw [closeAllTabsLegacy, normalizeKeep_coe, if_pos h]
  · intro k tabs hk hids
    have hne : ¬ tabs.length ≤ k := by omega
    have hrw : closeAllTabsLegacy (some (k : Int)) tabs =
        (closeLoopGo tabs k (tabs.length - k), k) := by
      rw [closeAllTabsLegacy, normalizeKeep_coe, if_neg hne]
    rw [hrw]
    refine ⟨closeLoopGo_length tabs hids k (tabs.length - k) (by omega), rfl, ?_⟩
    intro j hj
    show (closeLoopGo tabs k (tabs.length - k)).get? j = _
    rw [closeLoopGo_get? tabs hids k (tabs.length - k) j hj (by omega)]
    have harg : k + (tabs.length - k) - 1 - j = tabs.length - 1 - j := by omega
    rw [harg]
  · decide

/-- C4 witness: the no-op branch applied at a concrete single-tab list. -/
theorem C4_closeAllTabs_witness :
    closeAllTabsLegacy (some ((3 : Nat) : Int)) [({ id := some "a" } : Tab)] = ([], 1) :=
  C4_closeAllTabs.1 3 [({ id := some "a" } : Tab)] (by decide)

theorem ledgerStart_inv : ledgerInv ledgerStart := by
  intro i
  simp [ledgerStart, settledCount]

theorem ledgerStep_inv (s : LedgerState) (ev : LedgerEv) (h : ledgerInv s) :
    ledgerInv (ledgerStep s ev) := by
  cases ev with
  | send =>
    intro i
    have hi := h i
    have hnext := h s.nextId
    simp only [ledgerInv, settledCount, ledgerStep, List.count_cons, beq_iff_eq] at hi hnext ⊢
    split_ifs at hi hnext ⊢ <;> omega
  | response iid =>
    intro i
    have hi := h i
    by_cases hmem : iid ∈ s.pending
    · have hpos : 0 < s.pending.count iid := List.count_pos_iff.mpr hmem
      simp only [ledgerInv, settledCount, ledgerStep, if_pos hmem, List.count_cons,
        beq_iff_eq] at hi ⊢
      by_cases he : iid = i
      · subst he
        rw [List.count_erase_self]
        split_ifs at hi ⊢ <;> omega
      · rw [List.count_erase_of_ne (Ne.symm he)]
        split_ifs at hi ⊢ <;> omega
    · simpa [ledgerStep, hmem] using h i
  | timeoutFire iid =>
    intro i
    have hi := h i
    by_cases hmem : iid ∈ s.pending
    · have hpos : 0 < s.pending.count iid := List.count_pos_iff.mpr hmem
      simp only [ledgerInv, settledCount, ledgerStep, if_pos hmem, List.count_cons,
        beq_iff_eq] at hi ⊢
      by_cases he : iid = i
      · subst he
        rw [List.count_erase_self]
        split_ifs at hi ⊢ <;> omega
      · rw [List.count_erase_of_ne (Ne.symm he)]
        split_ifs at hi ⊢ <;> omega
    · simpa [ledgerStep, hmem] using h i
  | cancelAll =>
    intro i
    have hi := h i
    simp only [ledgerInv, settledCount, ledgerStep, List.count_append, List.count_nil] at hi ⊢
    split_ifs at hi ⊢ <;> omega

theorem ledgerFoldl_inv : ∀ (evs : List LedgerEv) (s : LedgerState), ledgerInv s →
    ledgerInv (evs.foldl ledgerStep s)
  | [], _, h => h
  | ev :: rest, s, h => ledgerFoldl_inv rest (ledgerStep s ev) (ledgerStep_inv s ev h)

theorem ledgerRun_inv (evs : List LedgerEv) : ledgerInv (ledgerRun evs) :=
  ledgerFoldl_inv evs ledgerStart ledgerStart_inv

/-- C1: settling an id whose ledger entry is absent is a no-op (a late
response, a second settle for the same id, or a late timeout changes nothing);
over every event trace each id is settled at most once, and once the ledger
has drained, every allocated id has been settled exactly once — by response,
timeout or bulk cancellation. -/
theorem C1_settle_once :
    (∀ (evs : List LedgerEv) (i : Nat), i ∉ (ledgerRun evs).pending →
      ledgerStep (ledgerRun evs) (.response i) = ledgerRun evs
      ∧ ledgerStep (ledgerRun evs) (.timeoutFire i) = ledgerRun evs)
    ∧ (∀ (evs : List LedgerEv) (i : Nat), settledCount (ledgerRun evs) i ≤ 1)
    ∧ (∀ (evs : List LedgerEv) (i : Nat), (ledgerRun evs).pending = [] →
        i < (ledgerRun evs).nextId → settledCount (ledgerRun evs) i = 1) := by
  refine ⟨?_, ?_, ?_⟩
  · intro evs i h
    constructor <;> simp [ledgerStep, h]
  · intro evs i
    have hi := ledgerRun_inv evs i
    split_ifs at hi <;> omega
  · intro evs i hp hlt
    have hi := ledgerRun_inv evs i
    rw [hp] at hi
    simp only [List.count_nil] at hi
    rw [if_pos hlt] at hi
    omega

/-- C1 witness: after a send and its timeout, a late response for the same id
is a no-op on the ledger. -/
theorem C1_settle_once_witness :
    ledgerStep (ledgerRun [LedgerEv.send, LedgerEv.timeoutFire 0]) (.response 0) =
      ledgerRun [LedgerEv.send, LedgerEv.timeoutFire 0] :=
  (C1_settle_once.1 [LedgerEv.send, LedgerEv.timeoutFire 0] 0 (by decide)).1

/-- C2: transport resolution never rejects to its caller; a non-unknown mode
is returned as-is with no probe sent; otherwise one probe is sent and its
success selects `modern` while any failure (timeout or peer error) selects
`legacy`, the resulting mode being returned. -/
theorem C2_resolveTransport :
    (∀ mode pr, ∃ r, resolveTransport mode pr = .ok r)
    ∧ (∀ mode pr, mode ≠ TransportMode.unknown →
        resolveTransport mode pr = .ok (mode, false))
    ∧ (∀ u, resolveTransport TransportMode.unknown (.ok u) =
        .ok (TransportMode.modern, true))
    ∧ (∀ e, resolveTransport TransportMode.unknown (.error e) =
        .ok (TransportMode.legacy, true))
    ∧ (∀ pr, (resolveTransportMode TransportMode.unknown pr).1 ≠ TransportMode.unknown) := by
  refine ⟨?_, ?_, ?_, ?_, ?_⟩
  · intro mode pr
    exact ⟨resolveTransportMode mode pr, rfl⟩
  · intro mode pr h
    simp [resolveTransport, resolveTransportMode, h]
  · intro u
    rfl
  · intro e
    rfl
  · intro pr
    cases pr <;> simp [resolveTransportMode]

/-- C2 witness: a memoized legacy mode is returned unchanged with no probe. -/
theorem C2_resolveTransport_witness :
    resolveTransport TransportMode.legacy (.error "timeout") =
      .ok (TransportMode.legacy, false) :=
  C2_resolveTransport.2.1 TransportMode.legacy (.error "timeout") (by decide)

/-- C3 counterexample: when both callers perform their mode check while the
first probe is still in flight (mode still unknown), each sends a probe — two
probe messages, contradicting the claim that the mode becomes non-unknown
before the second caller's check. -/
theorem C3_duplicate_probe_counterexample :
    (raceRun [RaceEv.check true, RaceEv.check false]).probesSent = 2
    ∧ (raceRun [RaceEv.check true, RaceEv.check false]).mode = TransportMode.unknown
    ∧ ¬ (raceRun [RaceEv.check true, RaceEv.check false]).probesSent ≤ 1 := by
  refine ⟨by decide, by decide, by decide⟩

theorem raceStep_inv (s : RaceState) (ev : RaceEv) (h : raceInv s) : raceInv (raceStep s ev) := by
  rw [raceInv] at h ⊢
  cases ev with
  | check isA =>
    cases isA <;> rw [raceStep] <;> split_ifs at h ⊢ <;> simp_all <;> omega
  | settle isA success =>
    cases isA <;> rw [raceStep] <;> split_ifs at h ⊢ <;> simp_all <;> omega

theorem raceFoldl_inv : ∀ (evs : List RaceEv) (s : RaceState), raceInv s →
    raceInv (evs.foldl raceStep s)
  | [], _, h => h
  | ev :: rest, s, h => raceFoldl_inv rest (raceStep s ev) (raceStep_inv s ev h)

/-- C3 amended: a caller whose mode check runs once the mode is no longer
unknown sends no probe (so in the sequential schedule, after the first probe
settles, the second caller sends nothing and exactly one probe is sent); but
each of the two callers can contribute one probe, so an interleaved pair of
first calls sends up to two probes in total. -/
theorem C3_probe_race :
    (∀ (s : RaceState) (isA : Bool), s.mode ≠ TransportMode.unknown →
      (raceStep s (.check isA)).probesSent = s.probesSent)
    ∧ (∀ success : Bool,
        (raceRun [RaceEv.check true, RaceEv.settle true success,
          RaceEv.check false]).probesSent = 1)
    ∧ (∀ evs, (raceRun evs).probesSent ≤ 2) := by
  refine ⟨?_, ?_, ?_⟩
  · intro s isA h
    rw [raceStep]
    by_cases hpc : (if isA then s.pcA else s.pcB) ≠ 0
    · rw [if_pos hpc]
    · rw [if_neg hpc, if_neg h]
  · intro success
    cases success <;> decide
  · intro evs
    have h := raceFoldl_inv evs raceStart (by rw [raceInv]; decide)
    rw [raceInv] at h
    rw [raceRun]
    split_ifs at h <;> omega

/-- C3 witness: a check against an already-resolved mode sends no probe. -/
theorem C3_probe_race_witness :
    (raceStep ⟨TransportMode.modern, 1, 0, 2⟩ (.check true)).probesSent = 1 :=
  C3_probe_race.1 ⟨TransportMode.modern, 1, 0, 2⟩ true (by decide)

set_option maxRecDepth 100000 in
/-- C5: in the never-ready scenario with threshold 10 and max attempts 5,
exactly five reload retries are scheduled, the backoff delay of retry attempt
k is `min(2000 * k, 8000)` (2000, 4000, 6000, 8000, 8000 ms), and the
terminal unresponsive notification fires last, carrying `attempts = 5`. -/
theorem C5_liveness_schedule :
    retryEvents neverReadyRun.events = [(1, 2000), (2, 4000), (3, 6000), (4, 8000), (5, 8000)]
    ∧ failEvents neverReadyRun.events = [(5, 5)]
    ∧ neverReadyRun.events.getLast? = some (LiveEv.connectFailed 5 5)
    ∧ neverReadyRun.retryCount = retryMax
    ∧ retryEvents neverReadyRun.events =
        (List.range retryMax).map (fun j => (j + 1, backoffDelay (j + 1))) := by
  refine ⟨by decide, by decide, by decide, by decide, by decide⟩

/-- C10: `callApi` rejects a non-string or blank method with the
argument-validation error, before awaiting readiness, sending anything or
touching the transport mode; a valid method is dispatched trimmed, on either
transport. -/
theorem C10_callApi_guard :
    (∀ mode pr, callApi mode pr .nonString =
      ⟨.error callApiGuardMsg, mode, false, false⟩)
    ∧ (∀ mode pr s, (jsTrim s).length = 0 →
        callApi mode pr (.jsStr s) = ⟨.error callApiGuardMsg, mode, false, false⟩)
    ∧ (∀ mode pr s, (jsTrim s).length ≠ 0 →
        (callApi mode pr (.jsStr s)).result = .ok (.modern (jsTrim s))
        ∨ (callApi mode pr (.jsStr s)).result = .ok (.legacy (jsTrim s))) := by
  refine ⟨?_, ?_, ?_⟩
  · intro mode pr
    rfl
  · intro mode pr s h
    rw [callApi, if_pos h]
  · intro mode pr s h
    rw [callApi, if_neg h]
    cases mode <;> cases pr
    · exact Or.inr rfl
    · exact Or.inl rfl
    · exact Or.inl rfl
    · exact Or.inl rfl
    · exact Or.inr rfl
    · exact Or.inr rfl

/-- C10 witness: a whitespace-only method is rejected without resolving the
transport. -/
theorem C10_callApi_guard_witness :
    callApi TransportMode.unknown (.ok ()) (.jsStr "   ") =
      ⟨.error callApiGuardMsg, TransportMode.unknown, false, false⟩ :=
  C10_callApi_guard.2.1 TransportMode.unknown (.ok ()) "   " (by decide)
